import Mathlib

/-!
Shallow embedding of the title-resolution + hybrid-similarity ranking engine
of `src/streamlit_app.py` (functions `jaccard_similarity`, `correct_name`,
`recommend_game`).

Numeric values (numpy float64 scores, the similarity matrix, `alpha`) are
idealised as rationals `ℚ`.  The external fuzzy scorer (`thefuzz`)
is abstracted as a parameter `scorer : String → String → ℕ` producing a
0–100 match score; `process.extractOne` itself (maximum over the choices,
first occurrence on ties, `None` on an empty choice list) is embedded below.
The in-place numpy mutation of the similarity-matrix row
(`cosine_scores /= np.max(cosine_scores)` on a view of `sim_matrix[g_idx]`)
is modelled by the explicit state function `simMatrixAfter`.
-/

namespace RecModel

/-- A catalog row of the games DataFrame `data`: the columns consulted by the
engine are `Name` (normalised title key), `Tags` (a set of tag strings) and
`Header image`. -/
structure Item where
  name : String
  tags : Finset String
  image : String
deriving DecidableEq

instance : Inhabited Item := ⟨⟨"", ∅, ""⟩⟩

/-- An element of the `game_list` built at lines 154–157 of the source:
a dictionary with keys `titulo` and `img_url`. -/
structure RecEntry where
  titulo : String
  img_url : String
deriving DecidableEq

/-- Decidable equality for `Except` results, so that concrete runs of the
engine can be checked by evaluation. -/
instance exceptDecEq {e a : Type} [DecidableEq e] [DecidableEq a] : DecidableEq (Except e a) :=
  fun x y =>
  match x, y with
  | Except.error u, Except.error v =>
      if h : u = v then isTrue (congrArg Except.error h)
      else isFalse (fun c => h (Except.error.inj c))
  | Except.ok u, Except.ok v =>
      if h : u = v then isTrue (congrArg Except.ok h)
      else isFalse (fun c => h (Except.ok.inj c))
  | Except.error _, Except.ok _ => isFalse (fun c => Except.noConfusion c)
  | Except.ok _, Except.error _ => isFalse (fun c => Except.noConfusion c)

/-- Lines 66–78: `jaccard_similarity(set1, set2)` returns
`intersection/union if union != 0 else 0`. -/
def jaccard_similarity (set1 set2 : Finset String) : ℚ :=
  if (set1 ∪ set2).card ≠ 0 then
    ((set1 ∩ set2).card : ℚ) / ((set1 ∪ set2).card : ℚ)
  else 0

/-- The column `data['Name']` as a list, in catalog order (line 92). -/
def names (data : List Item) : List String :=
  data.map (fun it => it.name)

/-- Python `str.strip()`: remove leading and trailing whitespace characters. -/
def trimWs (l : List Char) : List Char :=
  ((l.dropWhile Char.isWhitespace).reverse.dropWhile Char.isWhitespace).reverse

/-- Line 115: `title = title.lower().strip()` — lower-case every character
(ASCII range) and strip surrounding whitespace. -/
def normalizeTitle (t : String) : String :=
  String.mk (trimWs (t.data.map Char.toLower))

/-- Modelled from the spec and the `thefuzz` library boundary:
`process.extractOne(title, choices)` (line 93) returns the highest-scoring
choice together with its score — the first occurrence when several choices
tie for the maximum — and returns `None` when the choice list is empty. -/
def extractOne (scorer : String → String → ℕ) (query : String)
    (choices : List String) : Option (String × ℕ) :=
  choices.foldl
    (fun acc c =>
      match acc with
      | none => some (c, scorer query c)
      | some (b, s) => if s < scorer query c then some (c, scorer query c) else some (b, s))
    none

/-- The Python `TypeError` raised at line 93 when `process.extractOne`
returns `None` on an empty catalog and the code unpacks it into
`best_match, score`. -/
def pyTypeErrorMsg : String :=
  "TypeError: cannot unpack non-iterable NoneType object"

/-- Lines 80–98: `correct_name(title, data, threshold=80)`.
Returns the best fuzzy match if its score reaches the threshold, `None`
otherwise; on an empty catalog the tuple unpacking of `None` raises,
modelled as an `Except.error`. -/
def correct_name (scorer : String → String → ℕ) (title : String)
    (data : List Item) (threshold : ℕ) : Except String (Option String) :=
  match extractOne scorer title (names data) with
  | none => Except.error pyTypeErrorMsg
  | some (best, score) =>
      Except.ok (if threshold ≤ score then some best else none)

/-- Lines 114–123 of `recommend_game`: normalise the title, use it directly
when it is a catalog name, otherwise fall back to `correct_name`.
`Except.ok (some t)` is a resolved title, `Except.ok none` the not-found
outcome, `Except.error` a raised Python exception.  The guard
`if corr_title and corr_title in data['Name'].values` treats both `None`
and the empty string as falsy. -/
def resolveTitle (scorer : String → String → ℕ) (threshold : ℕ)
    (title : String) (data : List Item) : Except String (Option String) :=
  if normalizeTitle title ∈ names data then Except.ok (some (normalizeTitle title))
  else
    match correct_name scorer (normalizeTitle title) data threshold with
    | Except.error e => Except.error e
    | Except.ok none => Except.ok none
    | Except.ok (some c) =>
        if c ≠ "" ∧ c ∈ names data then Except.ok (some c) else Except.ok none

/-- Line 126: `g_idx = data[data['Name'] == title].index[0]` — the position
of the first catalog row whose name equals the resolved title. -/
def gIdx (t : String) (data : List Item) : ℕ :=
  data.findIdx (fun it => it.name == t)

/-- Lines 127–136: the Jaccard score vector, with the query item's own
entry forced to `0`. -/
def jaccardScores (data : List Item) (g : ℕ) : List ℚ :=
  (List.range data.length).map (fun idx =>
    if idx = g then 0
    else jaccard_similarity (data.getD g default).tags (data.getD idx default).tags)

/-- `np.max` of a score vector (`0` on the empty vector, which the code
never queries). -/
def listMax : List ℚ → ℚ
  | [] => 0
  | x :: xs => xs.foldl max x

/-- Lines 139–140 and 144–145: divide a score vector by its maximum, but
only when that maximum is positive (skipping the degenerate all-zero case). -/
def normalizeVec (v : List ℚ) : List ℚ :=
  if 0 < listMax v then v.map (fun x => x / listMax v) else v

/-- Line 143: `cosine_scores = sim_matrix[g_idx]`. -/
def cosineRow (sim : List (List ℚ)) (g : ℕ) : List ℚ :=
  sim.getD g []

/-- Line 148: `final_score = alpha * cosine_scores + (1 - alpha) * jaccard_scores`,
element-wise. -/
def combineScores (alpha : ℚ) (cos jac : List ℚ) : List ℚ :=
  List.zipWith (fun c j => alpha * c + (1 - alpha) * j) cos jac

/-- The combined score vector of lines 136–148: both components are
max-normalised (each normalisation skipped when its maximum is not positive)
and then blended with weight `alpha`. -/
def finalScore (data : List Item) (sim : List (List ℚ)) (g : ℕ) (alpha : ℚ) : List ℚ :=
  combineScores alpha (normalizeVec (cosineRow sim g)) (normalizeVec (jaccardScores data g))

/-- Score lookup used for sorting: `v[i]` (out-of-range reads, which the
code never performs, default to `0`). -/
def key (v : List ℚ) (i : ℕ) : ℚ :=
  v.getD i 0

/-- The comparison relation underlying `np.argsort` on the score vector. -/
def keyLe (v : List ℚ) (i j : ℕ) : Prop :=
  key v i ≤ key v j

instance (v : List ℚ) : DecidableRel (keyLe v) :=
  fun i j => inferInstanceAs (Decidable (key v i ≤ key v j))

instance (v : List ℚ) : IsTotal ℕ (keyLe v) :=
  ⟨fun a b => le_total (key v a) (key v b)⟩

instance (v : List ℚ) : IsTrans ℕ (keyLe v) :=
  ⟨fun _ _ _ hab hbc => le_trans hab hbc⟩

/-- Line 149: `final_score.argsort()[::-1]` — indices sorted ascending by
score then reversed (ties in the stable ascending sort keep catalog order,
matching numpy's sort on small inputs). -/
def argsortDesc (v : List ℚ) : List ℕ :=
  (List.insertionSort (keyLe v) (List.range v.length)).reverse

/-- Python slice `lst[1:stop]` with Python semantics for a negative `stop`
(counted from the end) and for a `stop` beyond the length (clamped). -/
def pySlice1 {α : Type} (l : List α) (stop : ℤ) : List α :=
  (l.take (if stop < 0 then (l.length : ℤ) + stop else stop).toNat).drop 1

/-- Line 149: `recomm_idx = final_score.argsort()[::-1][1:n_recommendation+1]`. -/
def recommIdx (v : List ℚ) (n : ℤ) : List ℕ :=
  pySlice1 (argsortDesc v) (n + 1)

/-- Lines 154–157: the entry appended to `game_list` for recommendation
index `idx`. -/
def mkEntry (data : List Item) (idx : ℕ) : RecEntry :=
  { titulo := (data.getD idx default).name, img_url := (data.getD idx default).image }

/-- Line 151: the success message (with the resolved title interpolated). -/
def baseMsg (t : String) : String :=
  "Com base no jogo \x27" ++ t ++ "\x27, recomendamos os seguintes títulos:"

/-- Line 123: the not-found message. -/
def notFoundMsg : String :=
  "Jogo não encontrado. Verifique o nome e tente novamente."

/-- Lines 100–159: `recommend_game(title, data, sim_matrix, n_recommendation, alpha)`.
Returns the `(output, game_list)` pair of the source; a raised Python
exception is an `Except.error`. -/
def recommend_game (scorer : String → String → ℕ) (title : String)
    (data : List Item) (sim : List (List ℚ)) (n : ℤ) (alpha : ℚ) :
    Except String (String × List RecEntry) :=
  match resolveTitle scorer 80 title data with
  | Except.error e => Except.error e
  | Except.ok none => Except.ok (notFoundMsg, [])
  | Except.ok (some t) =>
      Except.ok (baseMsg t,
        (recommIdx (finalScore data sim (gIdx t data) alpha) n).map (mkEntry data))

/-- The contents of `sim_matrix` after a call to `recommend_game`:
line 143 binds `cosine_scores` to a view of row `g_idx`, so the in-place
division `cosine_scores /= np.max(cosine_scores)` at line 145 rewrites that
row of the shared matrix whenever its maximum is positive. -/
def simMatrixAfter (scorer : String → String → ℕ) (title : String)
    (data : List Item) (sim : List (List ℚ)) : List (List ℚ) :=
  match resolveTitle scorer 80 title data with
  | Except.ok (some t) =>
      if 0 < listMax (cosineRow sim (gIdx t data)) then
        sim.set (gIdx t data)
          ((cosineRow sim (gIdx t data)).map (fun x => x / listMax (cosineRow sim (gIdx t data))))
      else sim
  | _ => sim

/-- C7: `jaccard_similarity` returns |intersection| / |union|, with `0`
(not an error) when both sets are empty; it evaluates to 1/3 on
`{"a","b"}` and `{"b","c"}`, and to 1 on any identical non-empty pair. -/
theorem c7_jaccard_correctness :
    (∀ s1 s2 : Finset String, (s1 ∪ s2).card ≠ 0 →
        jaccard_similarity s1 s2 = ((s1 ∩ s2).card : ℚ) / ((s1 ∪ s2).card : ℚ))
    ∧ jaccard_similarity {"a", "b"} {"b", "c"} = 1/3
    ∧ (∀ s : Finset String, s.Nonempty → jaccard_similarity s s = 1)
    ∧ jaccard_similarity (∅ : Finset String) (∅ : Finset String) = 0 := by
  refine ⟨fun s1 s2 h => by simp [jaccard_similarity, h],
    by simp [jaccard_similarity], fun s hs => ?_, by simp [jaccard_similarity]⟩
  have hpos : 0 < s.card := Finset.card_pos.mpr hs
  have hne : ((s.card : ℚ)) ≠ 0 := by
    exact_mod_cast Nat.pos_iff_ne_zero.mp hpos
  simp only [jaccard_similarity, Finset.union_self, Finset.inter_self]
  rw [if_pos (Nat.pos_iff_ne_zero.mp hpos)]
  exact div_self hne

/-- Witness for C7 at a concrete non-empty set. -/
theorem c7_jaccard_correctness_witness : jaccard_similarity {"x"} {"x"} = 1 :=
  c7_jaccard_correctness.2.2.1 {"x"} ⟨"x", Finset.mem_singleton_self "x"⟩

/-- C10: `jaccard_similarity` is commutative. -/
theorem c10_jaccard_commutative (s1 s2 : Finset String) :
    jaccard_similarity s1 s2 = jaccard_similarity s2 s1 := by
  unfold jaccard_similarity
  rw [Finset.union_comm s1 s2, Finset.inter_comm s1 s2]

/-- C4: a title whose normalized form equals a catalog name resolves to that
name through the exact-lookup branch, for every fuzzy threshold and every
scorer (so even a scorer preferring a different item is never consulted). -/
theorem c4_exact_match_priority (scorer : String → String → ℕ) (threshold : ℕ)
    (title : String) (data : List Item)
    (h : normalizeTitle title ∈ names data) :
    resolveTitle scorer threshold title data = Except.ok (some (normalizeTitle title)) := by
  unfold resolveTitle
  simp [h]

/-- Witness for C4: the title " A " normalizes to "a" and resolves exactly,
at threshold 0 where fuzzy matching would accept anything. -/
theorem c4_exact_match_priority_witness :
    normalizeTitle (" A ") ∈ names [⟨"a", ∅, "i"⟩]
    ∧ resolveTitle (fun _ _ => 0) 0 (" A ") [⟨"a", ∅, "i"⟩]
        = Except.ok (some (normalizeTitle (" A "))) :=
  ⟨by decide, c4_exact_match_priority (fun _ _ => 0) 0 (" A ") [⟨"a", ∅, "i"⟩] (by decide)⟩

/-- C9: on an empty catalog, resolution does not return the structured
not-found outcome: `process.extractOne` yields `None` and the tuple
unpacking in `correct_name` raises a `TypeError`, which propagates out of
`recommend_game` — the code raises instead of returning `NotFound`. -/
theorem c9_empty_catalog_raises (scorer : String → String → ℕ) (title : String)
    (sim : List (List ℚ)) (n : ℤ) (alpha : ℚ) :
    resolveTitle scorer 80 title [] = Except.error pyTypeErrorMsg
    ∧ recommend_game scorer title [] sim n alpha = Except.error pyTypeErrorMsg := by
  have h : resolveTitle scorer 80 title [] = Except.error pyTypeErrorMsg := by
    unfold resolveTitle correct_name extractOne names
    simp
  refine ⟨h, ?_⟩
  unfold recommend_game
  rw [h]

/-- Catalog for the C1 failing input: query item `a` whose tag overlap with
`b` (1/2) and `c` (1/3) drives the ranking when `alpha = 0.3`. -/
def c1data : List Item :=
  [⟨"a", {"p"}, "ia"⟩, ⟨"b", {"p", "q"}, "ib"⟩, ⟨"c", {"p", "r", "s"}, "ic"⟩]

/-- Similarity matrix for the C1 failing input (row of `a` is an ordinary
similarity row with self-similarity 1). -/
def c1sim : List (List ℚ) :=
  [[1, 9/10, 1/10], [0, 0, 0], [0, 0, 0]]

/-- C1: the query item CAN appear in its own recommendation list.  With the
combined scores `[3/10, 97/100, 149/300]` the query `a` is not the
top-ranked entry, so the slice `[1:n+1]` drops `b` (the best other item)
and returns `a` itself in second position. -/
theorem c1_query_item_in_own_output :
    recommend_game (fun _ _ => 0) ("a") c1data c1sim 5 (3/10)
      = Except.ok (baseMsg ("a"), [⟨"c", "ic"⟩, ⟨"a", "ia"⟩])
    ∧ ("a") ∈ ([⟨"c", "ic"⟩, ⟨"a", "ia"⟩] : List RecEntry).map RecEntry.titulo := by
  have hres : resolveTitle (fun _ _ => 0) 80 ("a") c1data = Except.ok (some ("a")) := by
    decide
  have hg : gIdx ("a") c1data = 0 := by decide
  have hr : List.range (c1data.length) = [0, 1, 2] := by decide
  have h0 : (c1data.getD 0 default).tags = ({"p"} : Finset String) := by decide
  have h1 : (c1data.getD 1 default).tags = ({"p", "q"} : Finset String) := by decide
  have h2 : (c1data.getD 2 default).tags = ({"p", "r", "s"} : Finset String) := by decide
  have hj1 : jaccard_similarity {"p"} {"p", "q"} = 1/2 := by simp [jaccard_similarity]
  have hj2 : jaccard_similarity {"p"} {"p", "r", "s"} = 1/3 := by simp [jaccard_similarity]
  have hjac : jaccardScores c1data 0 = [0, 1/2, 1/3] := by
    unfold jaccardScores
    rw [hr]
    simp only [List.map_cons, List.map_nil, h0, h1, h2]
    rw [hj1, hj2]
    norm_num
  have hfs : finalScore c1data c1sim 0 (3/10) = [3/10, 97/100, 149/300] := by
    have hcos : cosineRow c1sim 0 = [1, 9/10, 1/10] := rfl
    unfold finalScore
    rw [hjac, hcos]
    norm_num [normalizeVec, listMax, combineScores, List.foldl_cons, List.foldl_nil,
      List.map_cons, List.map_nil, List.zipWith_cons_cons]
  have hidx : recommIdx [(3:ℚ)/10, 97/100, 149/300] 5 = [2, 0] := by
    norm_num [recommIdx, pySlice1, argsortDesc, List.insertionSort, List.orderedInsert,
      keyLe, key, List.range_succ]
    decide
  refine ⟨?_, by decide⟩
  unfold recommend_game
  rw [hres]
  simp only [hg, hfs, hidx]
  decide

/-- Catalog for the C2 failing input. -/
def c2data : List Item :=
  [⟨"a", ∅, "ia"⟩, ⟨"b", ∅, "ib"⟩]

/-- Similarity matrix for the C2 failing input: the row of the query has
maximum 2, so the in-place normalization rewrites it. -/
def c2sim : List (List ℚ) :=
  [[2, 0], [0, 2]]

/-- C2: `recommend_game` is NOT side-effect-free on the similarity matrix:
`cosine_scores` is a view of row `g_idx`, and the in-place division by the
row maximum at line 145 rewrites the shared matrix — here row 0 changes
from `[2, 0]` to `[1, 0]`. -/
theorem c2_matrix_row_mutated_in_place :
    simMatrixAfter (fun _ _ => 0) ("a") c2data c2sim = [[1, 0], [0, 2]]
    ∧ simMatrixAfter (fun _ _ => 0) ("a") c2data c2sim ≠ c2sim := by
  have hres : resolveTitle (fun _ _ => 0) 80 ("a") c2data = Except.ok (some ("a")) := by
    decide
  have hg : gIdx ("a") c2data = 0 := by decide
  have hrow : cosineRow c2sim 0 = [2, 0] := rfl
  have hmax : listMax [(2:ℚ), 0] = 2 := by norm_num [listMax]
  have hafter : simMatrixAfter (fun _ _ => 0) ("a") c2data c2sim = [[1, 0], [0, 2]] := by
    unfold simMatrixAfter
    rw [hres]
    simp only [hg, hrow, hmax]
    norm_num [c2sim, List.map_cons, List.map_nil, List.set_cons_zero]
  refine ⟨hafter, ?_⟩
  rw [hafter]
  intro hcon
  simp only [c2sim, List.cons.injEq] at hcon
  exact absurd hcon.1.1 (by norm_num)

/-- Catalog for the C3 counterexample (tags as in the C1 input, distinct
images). -/
def c3data : List Item :=
  [⟨"a", {"p"}, "ja"⟩, ⟨"b", {"p", "q"}, "jb"⟩, ⟨"c", {"p", "r", "s"}, "jc"⟩]

/-- All-zero similarity matrix for the C3 counterexample: ranking is driven
by tag overlap alone. -/
def c3sim : List (List ℚ) :=
  [[0, 0, 0], [0, 0, 0], [0, 0, 0]]

/-- C3 counterexample: with combined scores `[0, 7/10, 7/15]` the best
other item `b` (score 7/10) is NOT returned — it is dropped as the
top-ranked entry — while the query `a` itself is returned, and no scores
accompany the entries (each output element is only a name/image pair).
The claimed output (the top 2 items other than the query, by descending
score) would have been `b` then `c`. -/
theorem c3_returns_wrong_items_counterexample :
    recommend_game (fun _ _ => 0) ("a") c3data c3sim 2 (3/10)
      = Except.ok (baseMsg ("a"), [⟨"c", "jc"⟩, ⟨"a", "ja"⟩])
    ∧ finalScore c3data c3sim (gIdx ("a") c3data) (3/10) = [0, 7/10, 7/15]
    ∧ (7:ℚ)/15 < 7/10
    ∧ ("b") ∉ ([⟨"c", "jc"⟩, ⟨"a", "ja"⟩] : List RecEntry).map RecEntry.titulo
    ∧ ("a") ∈ ([⟨"c", "jc"⟩, ⟨"a", "ja"⟩] : List RecEntry).map RecEntry.titulo := by
  have hres : resolveTitle (fun _ _ => 0) 80 ("a") c3data = Except.ok (some ("a")) := by
    decide
  have hg : gIdx ("a") c3data = 0 := by decide
  have hr : List.range (c3data.length) = [0, 1, 2] := by decide
  have h0 : (c3data.getD 0 default).tags = ({"p"} : Finset String) := by decide
  have h1 : (c3data.getD 1 default).tags = ({"p", "q"} : Finset String) := by decide
  have h2 : (c3data.getD 2 default).tags = ({"p", "r", "s"} : Finset String) := by decide
  have hj1 : jaccard_similarity {"p"} {"p", "q"} = 1/2 := by simp [jaccard_similarity]
  have hj2 : jaccard_similarity {"p"} {"p", "r", "s"} = 1/3 := by simp [jaccard_similarity]
  have hjac : jaccardScores c3data 0 = [0, 1/2, 1/3] := by
    unfold jaccardScores
    rw [hr]
    simp only [List.map_cons, List.map_nil, h0, h1, h2]
    rw [hj1, hj2]
    norm_num
  have hfs : finalScore c3data c3sim 0 (3/10) = [0, 7/10, 7/15] := by
    have hcos : cosineRow c3sim 0 = [0, 0, 0] := rfl
    unfold finalScore
    rw [hjac, hcos]
    norm_num [normalizeVec, listMax, combineScores, List.foldl_cons, List.foldl_nil,
      List.map_cons, List.map_nil, List.zipWith_cons_cons]
  have hidx : recommIdx [(0:ℚ), 7/10, 7/15] 2 = [2, 0] := by
    norm_num [recommIdx, pySlice1, argsortDesc, List.insertionSort, List.orderedInsert,
      keyLe, key, List.range_succ]
    decide
  refine ⟨?_, by rw [hg]; exact hfs, by norm_num, by decide, by decide⟩
  unfold recommend_game
  rw [hres]
  simp only [hg, hfs, hidx]
  decide

/-- Auxiliary induction for `extractOne`: whatever is returned either is a
member of the choice list or was already the accumulator. -/
lemma extractOne_aux_mem (scorer : String → String → ℕ) (q : String) :
    ∀ (choices : List String) (acc : Option (String × ℕ)) (b : String) (s : ℕ),
      List.foldl
        (fun acc c =>
          match acc with
          | none => some (c, scorer q c)
          | some (p, t) => if t < scorer q c then some (c, scorer q c) else some (p, t))
        acc choices = some (b, s) →
      b ∈ choices ∨ acc = some (b, s) := by
  intro choices
  induction choices with
  | nil => exact fun acc b s h => Or.inr h
  | cons c cs ih =>
    intro acc b s h
    rw [List.foldl_cons] at h
    rcases ih _ b s h with hin | hacc
    · exact Or.inl (List.mem_cons_of_mem _ hin)
    · cases acc with
      | none =>
        have hacc2 : some (c, scorer q c) = some (b, s) := hacc
        have hcb : c = b := congrArg Prod.fst (Option.some.inj hacc2)
        exact Or.inl (hcb ▸ List.mem_cons_self c cs)
      | some pt =>
        obtain ⟨p, t⟩ := pt
        have hacc2 :
            (if t < scorer q c then some (c, scorer q c) else some (p, t)) = some (b, s) :=
          hacc
        by_cases hlt : t < scorer q c
        · rw [if_pos hlt] at hacc2
          have hcb : c = b := congrArg Prod.fst (Option.some.inj hacc2)
          exact Or.inl (hcb ▸ List.mem_cons_self c cs)
        · rw [if_neg hlt] at hacc2
          exact Or.inr hacc2

/-- The best match returned by `extractOne` is one of the choices. -/
lemma extractOne_mem (scorer : String → String → ℕ) (q : String)
    (choices : List String) (b : String) (s : ℕ)
    (h : extractOne scorer q choices = some (b, s)) : b ∈ choices := by
  unfold extractOne at h
  rcases extractOne_aux_mem scorer q choices none b s h with hin | hacc
  · exact hin
  · exact absurd hacc (by simp)

/-- C5: threshold gating of the fuzzy fallback.  With no exact match and
`extractOne` producing best match `best` with score `score`:
a score below the threshold yields the structured not-found outcome
(below 80 — the threshold `recommend_game` uses — the full call returns the
not-found message with an empty list, not an exception); a score at or
above the threshold resolves to `best`, a catalog name (the guard
`if corr_title` requires the name to be non-empty, which real catalog name
keys are). -/
theorem c5_threshold_gating (scorer : String → String → ℕ) (threshold : ℕ)
    (title : String) (data : List Item) (sim : List (List ℚ)) (n : ℤ) (alpha : ℚ)
    (best : String) (score : ℕ)
    (hmiss : normalizeTitle title ∉ names data)
    (hbest : extractOne scorer (normalizeTitle title) (names data) = some (best, score)) :
    (score < threshold → resolveTitle scorer threshold title data = Except.ok none)
    ∧ (score < 80 → recommend_game scorer title data sim n alpha = Except.ok (notFoundMsg, []))
    ∧ (threshold ≤ score → best ≠ "" →
        resolveTitle scorer threshold title data = Except.ok (some best)
        ∧ best ∈ names data) := by
  have hcn : ∀ th : ℕ,
      correct_name scorer (normalizeTitle title) data th
        = Except.ok (if th ≤ score then some best else none) := by
    intro th
    unfold correct_name
    rw [hbest]
  have hnone : ∀ th : ℕ, score < th → resolveTitle scorer th title data = Except.ok none := by
    intro th hlt
    unfold resolveTitle
    rw [if_neg hmiss, hcn th, if_neg (Nat.not_le.mpr hlt)]
  refine ⟨hnone threshold, fun hlt80 => ?_, fun hge hne => ?_⟩
  · unfold recommend_game
    rw [hnone 80 hlt80]
  · have hmem : best ∈ names data := extractOne_mem scorer _ _ best score hbest
    refine ⟨?_, hmem⟩
    unfold resolveTitle
    rw [if_neg hmiss, hcn threshold, if_pos hge]
    have hred :
        (if best ≠ "" ∧ best ∈ names data then Except.ok (some best)
          else (Except.ok none : Except String (Option String)))
          = Except.ok (some best) := if_pos ⟨hne, hmem⟩
    exact hred

/-- Catalog for the C5 witness. -/
def c5wdata : List Item :=
  [⟨"bb", ∅, "i1"⟩, ⟨"cc", ∅, "i2"⟩]

/-- Scorer for the C5 witness: rates "bb" at 90 and everything else at 10. -/
def c5wscorer : String → String → ℕ :=
  fun _ c => if c = "bb" then 90 else 10

/-- Witness for C5: the same best score 90 is rejected at threshold 95 and
accepted at threshold 85. -/
theorem c5_threshold_gating_witness :
    resolveTitle c5wscorer 95 ("zz") c5wdata = Except.ok none
    ∧ resolveTitle c5wscorer 85 ("zz") c5wdata = Except.ok (some ("bb")) := by
  have h95 := c5_threshold_gating c5wscorer 95 ("zz") c5wdata [] 5 (3/10) ("bb") 90
    (by decide) (by decide)
  have h85 := c5_threshold_gating c5wscorer 85 ("zz") c5wdata [] 5 (3/10) ("bb") 90
    (by decide) (by decide)
  exact ⟨h95.1 (by decide), (h85.2.2 (by decide) (by decide)).1⟩

/-- The Python slice `[1:stop]` is empty for `stop = 1`. -/
lemma take_one_then_drop_one {α : Type} (l : List α) : (l.take 1).tail = [] := by
  cases l <;> simp

/-- Catalog for the C6 counterexample. -/
def c6data : List Item :=
  [⟨"a", {"p"}, "ia"⟩, ⟨"b", {"q"}, "ib"⟩]

/-- Similarity matrix for the C6 counterexample. -/
def c6sim : List (List ℚ) :=
  [[1, 0], [0, 1]]

/-- C6 counterexample: a call with `n_recommendation = 0 < 1` and
`alpha = 7` outside `[0, 1]` is not rejected — `recommend_game` returns the
normal success message with an empty list. -/
theorem c6_invalid_args_accepted_counterexample :
    recommend_game (fun _ _ => 0) ("a") c6data c6sim 0 7
      = Except.ok (baseMsg ("a"), [])
    ∧ (0 : ℤ) < 1 ∧ ¬ ((7 : ℚ) ≤ 1) := by
  have hres : resolveTitle (fun _ _ => 0) 80 ("a") c6data = Except.ok (some ("a")) := by
    decide
  refine ⟨?_, by norm_num, by norm_num⟩
  unfold recommend_game
  rw [hres]
  have hidx : recommIdx (finalScore c6data c6sim (gIdx ("a") c6data) 7) 0 = [] := by
    unfold recommIdx pySlice1
    norm_num
    exact take_one_then_drop_one _
  simp only [hidx, List.map_nil]

/-- C6 amended: `recommend_game` performs no validation of `n_recommendation`
or `alpha`.  For any resolved title, any `alpha` whatsoever and
`n ∈ {0, -1}` (the values below 1 for which the Python slice `[1:n+1]` is
empty), the call silently returns the normal success message and an empty
list instead of failing. -/
theorem c6_no_validation_silent_empty (scorer : String → String → ℕ) (title : String)
    (data : List Item) (sim : List (List ℚ)) (alpha : ℚ) (n : ℤ) (t : String)
    (hres : resolveTitle scorer 80 title data = Except.ok (some t))
    (hn : n = 0 ∨ n = -1) :
    recommend_game scorer title data sim n alpha = Except.ok (baseMsg t, []) := by
  have hempty : recommIdx (finalScore data sim (gIdx t data) alpha) n = [] := by
    rcases hn with h | h <;> subst h <;> unfold recommIdx pySlice1 <;> norm_num
    exact take_one_then_drop_one _
  unfold recommend_game
  rw [hres]
  simp only [hempty, List.map_nil]

/-- Catalog for the C6 witness. -/
def c6wdata : List Item :=
  [⟨"g", ∅, "ig"⟩, ⟨"h", ∅, "ih"⟩]

/-- Witness for C6 amended: `n = -1` and `alpha = 5/2` produce a silent
normal empty result. -/
theorem c6_no_validation_silent_empty_witness :
    recommend_game (fun _ _ => 0) ("g") c6wdata [[1, 0], [0, 1]] (-1) (5/2)
      = Except.ok (baseMsg ("g"), []) :=
  c6_no_validation_silent_empty (fun _ _ => 0) ("g") c6wdata [[1, 0], [0, 1]] (5/2) (-1)
    ("g") (by decide) (Or.inr rfl)

/-- A vector whose maximum is zero is left untouched by the guarded
normalization. -/
lemma normalizeVec_of_listMax_eq_zero (v : List ℚ) (h : listMax v = 0) :
    normalizeVec v = v := by
  unfold normalizeVec
  rw [h]
  simp

/-- C8: degenerate normalization.  For any resolved title the call completes
with a normal result (no exception), and whenever the tag-score vector
(resp. the similarity row) has maximum 0 its normalization is skipped: the
combined score blends the raw vector, `alpha * dense + (1 - alpha) * tags`
element-wise. -/
theorem c8_degenerate_normalization (scorer : String → String → ℕ) (title : String)
    (data : List Item) (sim : List (List ℚ)) (n : ℤ) (alpha : ℚ) (t : String)
    (hres : resolveTitle scorer 80 title data = Except.ok (some t)) :
    (∃ result, recommend_game scorer title data sim n alpha = Except.ok result)
    ∧ (listMax (jaccardScores data (gIdx t data)) = 0 →
        finalScore data sim (gIdx t data) alpha
          = combineScores alpha (normalizeVec (cosineRow sim (gIdx t data)))
              (jaccardScores data (gIdx t data)))
    ∧ (listMax (cosineRow sim (gIdx t data)) = 0 →
        finalScore data sim (gIdx t data) alpha
          = combineScores alpha (cosineRow sim (gIdx t data))
              (normalizeVec (jaccardScores data (gIdx t data)))) := by
  refine ⟨⟨_, by unfold recommend_game; rw [hres]⟩, fun h => ?_, fun h => ?_⟩
  · unfold finalScore
    rw [normalizeVec_of_listMax_eq_zero _ h]
  · unfold finalScore
    rw [normalizeVec_of_listMax_eq_zero _ h]

/-- Catalog for the C8 witness: disjoint singleton tag sets, so the tag
vector is all zero; the similarity matrix is all zero as well. -/
def c8wdata : List Item :=
  [⟨"u", {"p"}, "iu"⟩, ⟨"v", {"q"}, "iv"⟩]

/-- Witness for C8 at an all-zero similarity row. -/
theorem c8_degenerate_normalization_witness :
    finalScore c8wdata [[0, 0], [0, 0]] (gIdx ("u") c8wdata) (3/10)
      = combineScores (3/10) (cosineRow [[0, 0], [0, 0]] (gIdx ("u") c8wdata))
          (normalizeVec (jaccardScores c8wdata (gIdx ("u") c8wdata))) := by
  have h := c8_degenerate_normalization (fun _ _ => 0) ("u") c8wdata [[0, 0], [0, 0]]
    5 (3/10) ("u") (by decide)
  apply h.2.2
  have hg : gIdx ("u") c8wdata = 0 := by decide
  rw [hg]
  norm_num [cosineRow, listMax, List.foldl_cons, List.foldl_nil]

/-- The descending argsort is a permutation of the index range. -/
lemma argsortDesc_perm (v : List ℚ) : List.Perm (argsortDesc v) (List.range v.length) :=
  (List.reverse_perm _).trans (List.perm_insertionSort _ _)

/-- The descending argsort is sorted by non-increasing score. -/
lemma argsortDesc_sorted (v : List ℚ) :
    List.Sorted (fun i j => key v j ≤ key v i) (argsortDesc v) := by
  have h := List.sorted_insertionSort (keyLe v) (List.range v.length)
  exact List.pairwise_reverse.mpr h

/-- The descending argsort has as many entries as the score vector. -/
lemma argsortDesc_length (v : List ℚ) : (argsortDesc v).length = v.length :=
  ((argsortDesc_perm v).length_eq).trans (List.length_range _)

/-- The descending argsort has no duplicate indices. -/
lemma argsortDesc_nodup (v : List ℚ) : (argsortDesc v).Nodup :=
  ((argsortDesc_perm v).nodup_iff).mpr (List.nodup_range _)

/-- Membership in the descending argsort is just being a valid index. -/
lemma argsortDesc_mem (v : List ℚ) (i : ℕ) : i ∈ argsortDesc v ↔ i < v.length := by
  rw [(argsortDesc_perm v).mem_iff, List.mem_range]

/-- When index `g` carries the strictly largest score, it heads the
descending argsort. -/
lemma argsortDesc_head_of_strict_top (v : List ℚ) (g : ℕ) (hg : g < v.length)
    (htop : ∀ i < v.length, i ≠ g → key v i < key v g) :
    ∃ tl, argsortDesc v = g :: tl := by
  have hmem : g ∈ argsortDesc v := (argsortDesc_mem v g).mpr hg
  cases hdesc : argsortDesc v with
  | nil =>
    rw [hdesc] at hmem
    exact absurd hmem (List.not_mem_nil g)
  | cons h tl =>
    refine ⟨tl, ?_⟩
    have hnd := argsortDesc_nodup v
    have hsort := argsortDesc_sorted v
    rw [hdesc] at hmem hnd hsort
    suffices hhg : h = g by rw [hhg]
    by_contra hne
    have hgtl : g ∈ tl := by
      rcases List.mem_cons.mp hmem with h1 | h1
      · exact absurd h1.symm hne
      · exact h1
    have hle : key v g ≤ key v h := List.rel_of_sorted_cons hsort g hgtl
    have hhlt : h < v.length := by
      have : h ∈ argsortDesc v := by rw [hdesc]; exact List.mem_cons_self h tl
      exact (argsortDesc_mem v h).mp this
    have hlt : key v h < key v g := htop h hhlt hne
    linarith

/-- C3 amended: the returned entries are name/image pairs (no scores), and
whenever the query item holds the strictly highest combined score — so that
the dropped top-of-sort entry is the query itself — the output consists of
exactly the `min n (N-1)` highest-scoring OTHER items, listed in
non-increasing combined-score order: the query is absent, every returned
index is a valid catalog position, and every non-returned other item scores
no higher than any returned one. -/
theorem c3_top_n_when_query_ranks_first (scorer : String → String → ℕ) (title : String)
    (data : List Item) (sim : List (List ℚ)) (n : ℤ) (alpha : ℚ) (t : String)
    (hres : resolveTitle scorer 80 title data = Except.ok (some t))
    (hn : 1 ≤ n)
    (hlen : (finalScore data sim (gIdx t data) alpha).length = data.length)
    (hg : gIdx t data < data.length)
    (htop : ∀ i < data.length, i ≠ gIdx t data →
        key (finalScore data sim (gIdx t data) alpha) i
          < key (finalScore data sim (gIdx t data) alpha) (gIdx t data)) :
    recommend_game scorer title data sim n alpha
      = Except.ok (baseMsg t,
          (recommIdx (finalScore data sim (gIdx t data) alpha) n).map (mkEntry data))
    ∧ (recommIdx (finalScore data sim (gIdx t data) alpha) n).length
        = min n.toNat (data.length - 1)
    ∧ gIdx t data ∉ recommIdx (finalScore data sim (gIdx t data) alpha) n
    ∧ List.Sorted
        (fun i j => key (finalScore data sim (gIdx t data) alpha) j
          ≤ key (finalScore data sim (gIdx t data) alpha) i)
        (recommIdx (finalScore data sim (gIdx t data) alpha) n)
    ∧ (∀ j ∈ recommIdx (finalScore data sim (gIdx t data) alpha) n, j < data.length)
    ∧ (∀ i < data.length, i ≠ gIdx t data →
        i ∉ recommIdx (finalScore data sim (gIdx t data) alpha) n →
        ∀ j ∈ recommIdx (finalScore data sim (gIdx t data) alpha) n,
          key (finalScore data sim (gIdx t data) alpha) i
            ≤ key (finalScore data sim (gIdx t data) alpha) j) := by
  set v := finalScore data sim (gIdx t data) alpha with hv
  set g := gIdx t data with hgdef
  have hglt : g < v.length := by rw [hlen]; exact hg
  have htop2 : ∀ i < v.length, i ≠ g → key v i < key v g := by
    intro i hi hig
    exact htop i (by rw [← hlen]; exact hi) hig
  obtain ⟨tl, htl⟩ := argsortDesc_head_of_strict_top v g hglt htop2
  have hslice : recommIdx v n = tl.take n.toNat := by
    unfold recommIdx pySlice1
    have hpos : ¬ (n + 1 < 0) := by omega
    have htn : (n + 1).toNat = n.toNat + 1 := by omega
    rw [htl, if_neg hpos, htn, List.take_succ_cons]
    simp
  have hlen2 : (g :: tl).length = v.length := by
    rw [← htl]
    exact argsortDesc_length v
  have htll : tl.length = data.length - 1 := by
    have h1 : tl.length + 1 = data.length := by
      have h2 := hlen2.trans hlen
      simpa [List.length_cons] using h2
    omega
  have hnd : (g :: tl).Nodup := htl ▸ argsortDesc_nodup v
  have hgtl : g ∉ tl := (List.nodup_cons.mp hnd).1
  have hsorted : List.Sorted (fun i j => key v j ≤ key v i) (g :: tl) :=
    htl ▸ argsortDesc_sorted v
  have hsortedtl : List.Sorted (fun i j => key v j ≤ key v i) tl :=
    (List.sorted_cons.mp hsorted).2
  have hmemtl : ∀ x ∈ tl, x < data.length := by
    intro x hx
    have hxd : x ∈ argsortDesc v := by
      rw [htl]
      exact List.mem_cons_of_mem _ hx
    rw [argsortDesc_mem] at hxd
    rw [← hlen]
    exact hxd
  refine ⟨?_, ?_, ?_, ?_, ?_, ?_⟩
  · unfold recommend_game
    rw [hres]
  · rw [hslice, List.length_take, htll]
  · rw [hslice]
    intro hmem
    exact hgtl (List.take_subset _ _ hmem)
  · rw [hslice]
    exact List.Pairwise.sublist (List.take_sublist _ _) hsortedtl
  · rw [hslice]
    intro j hj
    exact hmemtl j (List.take_subset _ _ hj)
  · intro i hi hig hnot j hj
    have hitl : i ∈ tl := by
      have himem : i ∈ argsortDesc v := (argsortDesc_mem v i).mpr (by rw [hlen]; exact hi)
      rw [htl] at himem
      rcases List.mem_cons.mp himem with h1 | h1
      · exact absurd h1 hig
      · exact h1
    have hidrop : i ∈ tl.drop n.toNat := by
      have h2 : i ∈ tl.take n.toNat ++ tl.drop n.toNat := by
        rw [List.take_append_drop]
        exact hitl
      rcases List.mem_append.mp h2 with h3 | h3
      · exact absurd h3 (hslice ▸ hnot)
      · exact h3
    have hpw := hsortedtl
    rw [← List.take_append_drop n.toNat tl] at hpw
    have hcross := (List.pairwise_append.mp hpw).2.2
    exact hcross j (hslice ▸ hj) i hidrop

/-- Catalog for the C3 witness. -/
def c3wdata : List Item :=
  [⟨"a", {"p"}, "wa"⟩, ⟨"b", {"q"}, "wb"⟩, ⟨"c", {"r"}, "wc"⟩]

/-- Similarity matrix for the C3 witness: the query row `[5, 1, 2]`
normalizes to `[1, 1/5, 2/5]`, so the query is strictly top with
`alpha = 1`. -/
def c3wsim : List (List ℚ) :=
  [[5, 1, 2], [0, 0, 0], [0, 0, 0]]

/-- Witness for C3 amended: at the concrete input, the query index is
absent from the recommendation indices. -/
theorem c3_top_n_when_query_ranks_first_witness :
    gIdx ("a") c3wdata ∉ recommIdx (finalScore c3wdata c3wsim (gIdx ("a") c3wdata) 1) 2 := by
  have hg : gIdx ("a") c3wdata = 0 := by decide
  have hr : List.range (c3wdata.length) = [0, 1, 2] := by decide
  have h0 : (c3wdata.getD 0 default).tags = ({"p"} : Finset String) := by decide
  have h1 : (c3wdata.getD 1 default).tags = ({"q"} : Finset String) := by decide
  have h2 : (c3wdata.getD 2 default).tags = ({"r"} : Finset String) := by decide
  have hj1 : jaccard_similarity {"p"} {"q"} = 0 := by simp [jaccard_similarity]
  have hj2 : jaccard_similarity {"p"} {"r"} = 0 := by simp [jaccard_similarity]
  have hjac : jaccardScores c3wdata 0 = [0, 0, 0] := by
    unfold jaccardScores
    rw [hr]
    simp only [List.map_cons, List.map_nil, h0, h1, h2]
    rw [hj1, hj2]
    norm_num
  have hfs : finalScore c3wdata c3wsim 0 1 = [1, 1/5, 2/5] := by
    have hcos : cosineRow c3wsim 0 = [5, 1, 2] := rfl
    unfold finalScore
    rw [hjac, hcos]
    norm_num [normalizeVec, listMax, combineScores, List.foldl_cons, List.foldl_nil,
      List.map_cons, List.map_nil, List.zipWith_cons_cons]
  have h := c3_top_n_when_query_ranks_first (fun _ _ => 0) ("a") c3wdata c3wsim 2 1 ("a")
    (by decide) (by norm_num)
    (by rw [hg, hfs]; decide)
    (by rw [hg]; decide)
    (by
      rw [hg, hfs]
      intro i hi hig
      have hi3 : i < 3 := by simpa using hi
      interval_cases i
      · exact absurd rfl hig
      · norm_num [key, List.getD_cons_zero, List.getD_cons_succ]
      · norm_num [key, List.getD_cons_zero, List.getD_cons_succ])
  exact h.2.2.1

end RecModel
